import Mathlib

/-
  Verification development for the Glass contract-verification engine.

  The embedding models, over `List Char` / `String`:
  - the text-level primitives used by the verifier (substring search,
    whole-word token search, line splitting, shebang neutralization);
  - the contract data model (`GlassFile`, `Contract`, `VerificationResult`);
  - the contract verifier and instrumentation planner;
  - the TypeScript program factory (`createProgramFromGlassFile`,
    `createBatchProgram`, `getCompilerOptions`, `getDefaultHost`,
    `resetCache`) with its module-level cache made explicit as a
    state-passing `Cache` value, and the TypeScript compiler API
    abstracted as an oracle.
-/

namespace Glass

/-- Does the list start with the given pattern? Embeds `String.prototype.startsWith` / regex anchored match. -/
def startsWithL : List Char → List Char → Bool
  | _, [] => true
  | [], _ :: _ => false
  | c :: cs, p :: ps => c = p && startsWithL cs ps

/-- Substring search, embedding `String.prototype.includes`. -/
def containsSub : List Char → List Char → Bool
  | [], pat => startsWithL [] pat
  | c :: cs, pat => startsWithL (c :: cs) pat || containsSub cs pat

/-- Word-constituent characters, matching the JavaScript regex word-boundary class `[A-Za-z0-9_]`. -/
def isWordChar (c : Char) : Bool := c.isAlphanum || c = '_'

/-- Whole-word match at the current position: the pattern occurs here, the
preceding character (if any) is not a word character, and the following
character (if any) is not a word character. -/
def wholeWordHere (prev : Option Char) (s pat : List Char) : Bool :=
  startsWithL s pat
    && (match prev with
        | none => true
        | some c => !isWordChar c)
    && (match s.drop pat.length with
        | [] => true
        | c :: _ => !isWordChar c)

/-- Scan all positions for a whole-word occurrence, tracking the previous character. -/
def containsWholeWordAux : Option Char → List Char → List Char → Bool
  | prev, [], pat => wholeWordHere prev [] pat
  | prev, c :: cs, pat => wholeWordHere prev (c :: cs) pat || containsWholeWordAux (some c) cs pat

/-- Whole-word token search: the pattern occurs somewhere delimited by
non-word characters (or the ends of the text) on both sides. -/
def containsWholeWord (s pat : List Char) : Bool := containsWholeWordAux none s pat

/-- String-level wrapper for substring search. -/
def containsSubstr (s pat : String) : Bool := containsSub s.data pat.data

/-- String-level wrapper for the anchored match. -/
def startsWithStr (s pat : String) : Bool := startsWithL s.data pat.data

/-- String-level wrapper for whole-word token search. -/
def containsWholeWordStr (s pat : String) : Bool := containsWholeWord s.data pat.data

/-- Split a character list into its lines, the way `String.split` on a
newline does: every element but the last was terminated by a newline in
the input, and the last element is the (possibly empty) unterminated tail. -/
def linesOf : List Char → List (List Char)
  | [] => [[]]
  | c :: cs =>
    if c = '\n' then [] :: linesOf cs
    else
      match linesOf cs with
      | [] => [[c]]
      | l :: ls => (c :: l) :: ls

/-- Rejoin lines with newline separators; inverse of `linesOf`. -/
def joinNl : List (List Char) → List Char
  | [] => []
  | [l] => l
  | l :: ls => l ++ '\n' :: joinNl ls

/-- The characters of the pattern `#!` looked for by the shebang guard. -/
def hashBangL : List Char := ['#', '!']

/-- The comment line that replaces a stripped shebang line, embedding the
replacement text of the regex substitution in `createProgramFromGlassFile`. -/
def shebangComment : List Char := "// (shebang removed)".data

/-- Replace the first newline-terminated line containing `#!` with the
comment line, embedding a single multiline-anchored regex substitution:
only lines followed by a newline can match, and only the first match is
replaced. The final, unterminated line never matches. -/
def replaceFirstShebang : List (List Char) → List (List Char)
  | [] => []
  | [last] => [last]
  | l :: ls =>
    if containsSub l hashBangL then shebangComment :: ls
    else l :: replaceFirstShebang ls

/-- Embeds the shebang guard of the program factory: if the text contains
`#!` anywhere, run the substitution of the first terminated line that
contains `#!`; otherwise the text is left unchanged. -/
def stripShebangL (s : List Char) : List Char :=
  if containsSub s hashBangL then joinNl (replaceFirstShebang (linesOf s)) else s

/-- Where an intent originated from (source type `IntentSource`). -/
inductive IntentSource where
  | prd (reference : String)
  | conversation (sessionId : String) (quote : Option String)
  | aiGenerated (reason : String)
  deriving Repr, DecidableEq

/-- Who cares about this intent (source type `Stakeholder`). -/
inductive Stakeholder where
  | user | product | engineering | security
  deriving Repr, DecidableEq

/-- Approval status of an intent (source type `ApprovalStatus`). -/
inductive ApprovalStatus where
  | approved | pending | autoApproved
  deriving Repr, DecidableEq

/-- A sub-intent reference with optional annotation list (source interface `SubIntentRef`). -/
structure SubIntentRef where
  id : String
  annotations : Option (List String)
  deriving Repr, DecidableEq

/-- The Intent layer (source interface `Intent`). -/
structure Intent where
  purpose : String
  source : IntentSource
  parent : Option String
  stakeholder : Stakeholder
  subIntents : List SubIntentRef
  approvalStatus : ApprovalStatus
  deriving Repr, DecidableEq

/-- A single assertion in a contract section (source interface `ContractAssertion`). -/
structure ContractAssertion where
  description : String
  deriving Repr, DecidableEq

/-- A declared failure mode with its handling strategy (source interface `FailureMode`). -/
structure FailureMode where
  errorType : String
  handling : String
  deriving Repr, DecidableEq

/-- A decision flagged for human review (source interface `Advisory`). -/
structure Advisory where
  description : String
  resolved : Bool
  deriving Repr, DecidableEq

/-- The `guarantees` object of a contract. -/
structure Guarantees where
  onSuccess : List ContractAssertion
  onFailure : List ContractAssertion
  deriving Repr, DecidableEq

/-- The Contract layer (source interface `Contract`). -/
structure Contract where
  requires : List ContractAssertion
  guarantees : Guarantees
  invariants : List ContractAssertion
  fails : List FailureMode
  advisories : List Advisory
  deriving Repr, DecidableEq

/-- Supported target languages (source type `TargetLanguage`). -/
inductive TargetLanguage where
  | typescript | rust
  deriving Repr, DecidableEq

/-- A complete parsed .glass file (source interface `GlassFile`). -/
structure GlassFile where
  id : String
  version : String
  language : TargetLanguage
  intent : Intent
  contract : Contract
  implementation : String
  specPath : String
  implementationPath : Option String
  separatedFormat : Bool
  deriving Repr, DecidableEq

/-- How an assertion was verified (source type `VerificationLevel`). -/
inductive VerificationLevel where
  | PROVEN | INSTRUMENTED | TESTED | UNVERIFIABLE
  deriving Repr, DecidableEq

/-- Overall status of a verification result, the string union `PROVEN | FAILED` of the source. -/
inductive VerificationStatus where
  | PROVEN | FAILED
  deriving Repr, DecidableEq

/-- A single verification assertion result (source interface `VerificationAssertion`). -/
structure VerificationAssertion where
  assertion : String
  passed : Bool
  level : VerificationLevel
  message : String
  deriving Repr, DecidableEq

/-- The result of verifying a single Glass unit (source interface `VerificationResult`). -/
structure VerificationResult where
  unitId : String
  status : VerificationStatus
  assertions : List VerificationAssertion
  advisories : List Advisory
  deriving Repr, DecidableEq

/-- The first whitespace-delimited word of a description, used to pull the
dotted reference (for example `input.name`) out of a clause. -/
def firstWordL (l : List Char) : List Char := l.takeWhile (fun c => !(c = ' '))

/-- The component after the last dot of a dotted reference: for
`user.password_hash` this is `password_hash`. -/
def lastDotComponent (l : List Char) : List Char :=
  l.foldl (fun acc c => if c = '.' then [] else acc ++ [c]) []

/-- Modelled from the spec: the verifier source (`src/compiler/verifier.ts`
with `verifyContract`) is absent from the repository snapshot, so the
sensitive-identifier extraction of classifier rule 4 is reconstructed from
the spec: the named sensitive identifier of an exposure invariant is the
field name of the dotted reference that opens the clause text. -/
def sensitiveIdent (desc : String) : String :=
  ⟨lastDotComponent (firstWordL desc.data)⟩

/-- Text after the first occurrence of a pattern, or `none` when the
pattern does not occur. -/
def afterFirstSub : List Char → List Char → Option (List Char)
  | [], pat => if startsWithL [] pat then some [] else none
  | c :: cs, pat =>
    if startsWithL (c :: cs) pat then some ((c :: cs).drop pat.length)
    else afterFirstSub cs pat

/-- Modelled from the spec: syntactic detection of an identifier inside a
call to a named function — the identifier occurs in the argument text
between the first `fn(` and the closing parenthesis. -/
def identInCall (impl fn ident : List Char) : Bool :=
  match afterFirstSub impl (fn ++ ['(']) with
  | none => false
  | some rest => containsSub (rest.takeWhile (fun c => !(c = ')'))) ident

/-- Modelled from the spec: the logging/printing call names scanned by
classifier rule 4. -/
def loggingFns : List (List Char) :=
  ["console.log".data, "console.error".data, "console.warn".data,
   "console.info".data, "process.stdout.write".data, "print".data]

/-- Modelled from the spec: the safe comparison/hashing call names of
classifier rule 4. -/
def safeFns : List (List Char) :=
  ["compare".data, "hash".data, "timingSafeEqual".data]

/-- Modelled from the spec: does the implementation pass the named
sensitive identifier to a logging/printing call? -/
def identInLoggingCall (impl ident : String) : Bool :=
  loggingFns.any (fun f => identInCall impl.data f ident.data)

/-- Modelled from the spec: the identifier only appears inside a safe
comparison/hashing call — it occurs in such a call and in no
logging/printing call. -/
def identOnlyInSafeCalls (impl ident : String) : Bool :=
  safeFns.any (fun f => identInCall impl.data f ident.data)
    && !(identInLoggingCall impl ident)

/-- Modelled from the spec: classifier rule 1 and 2 for `requires`
clauses, from the absent `verifyContract` source. A clause with prefix
`input.` is an input precondition: the dotted reference is searched for
literally in the implementation text; found gives `PROVEN, passed=true`,
absent gives `PROVEN, passed=false`. A clause with prefix `system.` is a
system precondition: always `INSTRUMENTED, passed=true`, deferred to a
runtime check. Other preconditions default to `INSTRUMENTED, passed=true`. -/
def classifyRequire (impl : String) (cl : ContractAssertion) : VerificationAssertion :=
  if startsWithStr cl.description "input." then
    if containsSubstr impl ⟨firstWordL cl.description.data⟩ then
      { assertion := cl.description, passed := true, level := .PROVEN,
        message := "input reference found in implementation" }
    else
      { assertion := cl.description, passed := false, level := .PROVEN,
        message := "input reference not found in implementation" }
  else if startsWithStr cl.description "system." then
    { assertion := cl.description, passed := true, level := .INSTRUMENTED,
      message := "system precondition deferred to runtime check" }
  else
    { assertion := cl.description, passed := true, level := .INSTRUMENTED,
      message := "precondition deferred to runtime check" }

/-- Modelled from the spec: classifier rule 3 for success/failure
guarantees, from the absent `verifyContract` source — guarantees default
to `INSTRUMENTED, passed=true`. -/
def classifyGuarantee (cl : ContractAssertion) : VerificationAssertion :=
  { assertion := cl.description, passed := true, level := .INSTRUMENTED,
    message := "guarantee deferred to runtime check" }

/-- Modelled from the spec: classifier rule 4 for invariants, from the
absent `verifyContract` source. Memory-lifetime invariants (text contains
`never held in memory`) are always `INSTRUMENTED`. Sensitive-exposure
invariants (text contains `never exposed`) are `PROVEN`, failing exactly
when the named sensitive identifier reaches a logging/printing call.
Other invariants default to `INSTRUMENTED, passed=true`. -/
def classifyInvariant (impl : String) (cl : ContractAssertion) : VerificationAssertion :=
  if containsSubstr cl.description "never held in memory" then
    { assertion := cl.description, passed := true, level := .INSTRUMENTED,
      message := "memory lifetime deferred to runtime check" }
  else if containsSubstr cl.description "never exposed" then
    if identInLoggingCall impl (sensitiveIdent cl.description) then
      { assertion := cl.description, passed := false, level := .PROVEN,
        message := "sensitive identifier passed to logging call" }
    else
      { assertion := cl.description, passed := true, level := .PROVEN,
        message := "no exposure of sensitive identifier found" }
  else
    { assertion := cl.description, passed := true, level := .INSTRUMENTED,
      message := "invariant deferred to runtime check" }

/-- Modelled from the spec: classifier rule 5 for named failure modes,
from the absent `verifyContract` source — whole-word token search of the
implementation text for the error-type identifier. -/
def classifyFailureMode (impl : String) (fm : FailureMode) : VerificationAssertion :=
  if containsWholeWordStr impl fm.errorType then
    { assertion := "fails " ++ fm.errorType ++ " handled by " ++ fm.handling,
      passed := true, level := .PROVEN, message := "referenced in implementation" }
  else
    { assertion := "fails " ++ fm.errorType ++ " handled by " ++ fm.handling,
      passed := false, level := .PROVEN, message := "not found in implementation" }

/-- Modelled from the spec: the contract verifier `verifyContract` of the
absent `src/compiler/verifier.ts`. One assertion per `requires` entry, per
`guarantees.onSuccess` and `guarantees.onFailure` entry, per `invariants`
entry and per `fails` entry, in section order; overall status `PROVEN`
exactly when every assertion passed; contract advisories passed through. -/
def verifyContract (u : GlassFile) : VerificationResult :=
  let impl := u.implementation
  let asserts :=
    u.contract.requires.map (classifyRequire impl)
      ++ u.contract.guarantees.onSuccess.map classifyGuarantee
      ++ u.contract.guarantees.onFailure.map classifyGuarantee
      ++ u.contract.invariants.map (classifyInvariant impl)
      ++ u.contract.fails.map (classifyFailureMode impl)
  { unitId := u.id
    status := if asserts.all (fun a => a.passed) then .PROVEN else .FAILED
    assertions := asserts
    advisories := u.contract.advisories }

/-- Insertion point of a runtime check (source union `pre | post`). -/
inductive InsertionPoint where
  | pre | post
  deriving Repr, DecidableEq

/-- A runtime check of an instrumentation plan, with the field names used
by the instrumentation tests (`assertionText`, `verificationLevel`,
`checkCode`, `insertionPoint`, `errorMessage`). -/
structure Check where
  assertionText : String
  verificationLevel : VerificationLevel
  checkCode : String
  insertionPoint : InsertionPoint
  errorMessage : String
  deriving Repr, DecidableEq

/-- An instrumentation plan for one unit (source `InstrumentationPlan`). -/
structure InstrumentationPlan where
  unitId : String
  checks : List Check
  deriving Repr, DecidableEq

/-- Modelled from the spec: build one runtime check from an instrumented
assertion — a guard description derived from the clause text and an error
message referencing the originating assertion text. -/
def mkCheck (point : InsertionPoint) (a : VerificationAssertion) : Check :=
  { assertionText := a.assertion
    verificationLevel := a.level
    checkCode := "// runtime check: " ++ a.assertion
    insertionPoint := point
    errorMessage := "Assertion failed: " ++ a.assertion }

/-- Modelled from the spec: the instrumentation planner
`generateInstrumentation` of the absent `src/compiler/verifier.ts`. The
result assertions sit in section order, so the first `|requires|` entries
are the precondition assertions and the next
`|onSuccess| + |onFailure| + |invariants|` entries are the
guarantee/invariant assertions; every assertion with level `INSTRUMENTED`
yields one check, preconditions at insertion point `pre` and
guarantees/invariants at `post`; failure-mode assertions are always
`PROVEN` and yield none. -/
def generateInstrumentation (u : GlassFile) (r : VerificationResult) : InstrumentationPlan :=
  let nR := u.contract.requires.length
  let nG := u.contract.guarantees.onSuccess.length
      + u.contract.guarantees.onFailure.length + u.contract.invariants.length
  let preAsserts := r.assertions.take nR
  let postAsserts := (r.assertions.drop nR).take nG
  { unitId := u.id
    checks :=
      (preAsserts.filter (fun a => a.level == .INSTRUMENTED)).map (mkCheck .pre)
        ++ (postAsserts.filter (fun a => a.level == .INSTRUMENTED)).map (mkCheck .post) }

/-- Modelled from the spec: the call `verifyContract(file)` observed
together with the unit after the call — the no-mutation tests compare the
unit before and after the call, and the embedding of the side-effect-free
verifier returns the unit it was given. -/
def verifyContractRun (u : GlassFile) : VerificationResult × GlassFile :=
  (verifyContract u, u)

/-- Modelled from the spec: the call `generateInstrumentation(file, result)`
observed together with the unit after the call. -/
def generateInstrumentationRun (u : GlassFile) (r : VerificationResult) :
    InstrumentationPlan × GlassFile :=
  (generateInstrumentation u r, u)

/-- Node path arithmetic abstracted as an oracle: `path.join` over plain
segments, two-argument `path.resolve`, and `path.dirname`. -/
structure PathApi where
  joinSegs : List String → String
  resolve2 : String → String → String
  dirname : String → String

/-- The quote characters of the import regex character classes: a double
quote and a single quote (codepoint 39). -/
def quoteChars : List Char := ['"', Char.ofNat 39]

/-- The capture shape of the import regex: a dot, an optional second dot,
a slash, then at least one further non-quote character. -/
def isRelSpecifier (cap : List Char) : Bool :=
  (startsWithL cap "./".data && decide (3 ≤ cap.length))
    || (startsWithL cap "../".data && decide (4 ≤ cap.length))

/-- One attempt of the import regex at the current position: the keyword
`import` or `from`, one or more whitespace characters, an opening quote,
a captured relative specifier of non-quote characters, and a closing
quote. Returns the specifier and the text after the full match. -/
def matchImportAt (s : List Char) : Option (String × List Char) :=
  let afterKw : Option (List Char) :=
    if startsWithL s "import".data then some (s.drop 6)
    else if startsWithL s "from".data then some (s.drop 4)
    else none
  match afterKw with
  | none => none
  | some r1 =>
    let wsLen := (r1.takeWhile fun c => c.isWhitespace).length
    if wsLen = 0 then none
    else
      match r1.drop wsLen with
      | [] => none
      | q :: r2 =>
        if quoteChars.contains q then
          let cap := r2.takeWhile fun c => !(quoteChars.contains c)
          match r2.drop cap.length with
          | [] => none
          | _ :: r3 =>
            if isRelSpecifier cap then some (⟨cap⟩, r3) else none
        else none

/-- Exec-style scan of the global import regex: on a match, continue after
the whole match; on failure, advance one character. A successful match
always consumes at least one character, so fuel equal to the text length
never truncates the scan. -/
def scanImportsAux : Nat → List Char → List String
  | 0, _ => []
  | fuel + 1, s =>
    match matchImportAt s with
    | some (spec, rest) => spec :: scanImportsAux fuel rest
    | none =>
      match s with
      | [] => []
      | _ :: cs => scanImportsAux fuel cs

/-- All relative import specifiers of an implementation text, in match order. -/
def scanImports (s : List Char) : List String := scanImportsAux s.length s

/-- Keep the first occurrence of every specifier, embedding the
`imports.has(specifier)` guard of the extraction loop. -/
def dedupFirst : List String → List String
  | [] => []
  | x :: xs => x :: dedupFirst (xs.filter fun y => !(y = x))
  termination_by l => l.length
  decreasing_by
    simp only [List.length_cons]
    exact Nat.lt_succ_of_le (List.length_filter_le _ _)

/-- Embeds `resolveImportPath`: a non-relative specifier is not resolved;
otherwise the specifier is resolved against the directory of the unit's
inferred source location (or the src directory of the project root) and
the first of the four candidate paths that exists on disk is returned.
The disk is abstracted as an exists-oracle. -/
def resolveImportPath (api : PathApi) (dfs : String → Bool) (specifier : String)
    (glassFilePath : Option String) (projectRoot : String) : Option String :=
  if !startsWithStr specifier "." then none
  else
    let baseDir :=
      match glassFilePath with
      | some p => api.dirname (api.resolve2 projectRoot p)
      | none => api.resolve2 projectRoot "src"
    let resolved := api.resolve2 baseDir specifier
    [resolved ++ ".ts", resolved ++ "/index.ts", resolved ++ ".js",
      resolved ++ "/index.js"].find? dfs

/-- Embeds `inferSourcePath`: probe the conventional on-disk candidates
derived from the unit's dotted id under the given project root, and
return the first that exists. -/
def inferSourcePath (api : PathApi) (dfs : String → Bool) (file : GlassFile)
    (projectRoot : String) : Option String :=
  let idParts := file.id.splitOn "."
  let pairCands :=
    match idParts with
    | [modPart, namePart] =>
      [api.joinSegs [projectRoot, "src", modPart, namePart ++ ".ts"],
       api.joinSegs [projectRoot, "src", modPart, namePart ++ ".glass"],
       api.joinSegs [projectRoot, "src", modPart, "index.ts"]]
    | _ => []
  let flatCands :=
    [api.joinSegs [projectRoot, "src", String.intercalate "/" idParts ++ ".ts"],
     api.joinSegs [projectRoot, "src", String.intercalate "/" idParts ++ ".glass"]]
  (pairCands ++ flatCands).find? dfs

/-- Embeds `resolveImplementationImports`: extract the relative import
specifiers of the implementation text, first occurrence of each, and pair
every specifier that resolves on disk with its resolved path. -/
def resolveImplementationImports (api : PathApi) (dfs : String → Bool)
    (implementation : String) (glassFilePath : Option String) (projectRoot : String) :
    List (String × String) :=
  (dedupFirst (scanImports implementation.data)).filterMap fun spec =>
    (resolveImportPath api dfs spec glassFilePath projectRoot).map fun r => (spec, r)

/-- Map-style insertion: an existing key keeps its position and takes the
new value, a new key is appended, embedding `Map.prototype.set`. -/
def upsert (m : List (String × String)) (kv : String × String) : List (String × String) :=
  if m.any fun p => p.1 == kv.1 then
    m.map fun p => if p.1 == kv.1 then (p.1, kv.2) else p
  else m ++ [kv]

/-- The shared import table of the batch factory: the resolved imports
of every file (computed from its shebang-stripped text and its own
inferred source location under the one project root) merged in file order. -/
def batchResolvedImports (api : PathApi) (dfs : String → Bool) (files : List GlassFile)
    (projectRoot : String) : List (String × String) :=
  files.foldl
    (fun acc f =>
      (resolveImplementationImports api dfs ⟨stripShebangL f.implementation.data⟩
        (inferSourcePath api dfs f projectRoot) projectRoot).foldl upsert acc)
    []

/-- TypeScript compiler options, with the fields set by the fallback
default literal of `getCompilerOptions`; enum-valued fields carry the
numeric values of the TypeScript API enums. -/
structure TsCompilerOptions where
  strict : Bool
  target : Nat
  module : Nat
  moduleResolution : Nat
  esModuleInterop : Bool
  skipLibCheck : Bool
  declaration : Bool
  noEmit : Bool
  deriving Repr, DecidableEq

/-- The fallback default options of `getCompilerOptions`: strict mode on,
ES2020 target (enum value 7), Node16 module (100) and resolution (3),
no declaration emission, no emit. -/
def defaultCompilerOptions : TsCompilerOptions :=
  { strict := true
    target := 7
    module := 100
    moduleResolution := 3
    esModuleInterop := true
    skipLibCheck := true
    declaration := false
    noEmit := true }

/-- Observable state of `tsconfig.json` at a project root: missing
(`fs.existsSync` false), present but unreadable (`configFile.error`), or
readable with parsed options. -/
inductive TsconfigState where
  | absent
  | unreadable
  | readable (opts : TsCompilerOptions)
  deriving Repr, DecidableEq

/-- A compiler host, remembering the options it was created from
(`ts.createCompilerHost(options)`). -/
structure CompilerHost where
  builtFrom : TsCompilerOptions
  deriving Repr, DecidableEq

/-- The module-level cache of the program factory, made explicit: the two
module variables `cachedCompilerOptions` and `cachedDefaultHost`. -/
structure Cache where
  cachedCompilerOptions : Option TsCompilerOptions
  cachedDefaultHost : Option CompilerHost
  deriving Repr, DecidableEq

/-- The empty cache, both module variables `null`. -/
def emptyCache : Cache := ⟨none, none⟩

/-- Embeds `getCompilerOptions`: return the cached options when present;
otherwise consult `tsconfig.json` at the project root — parsed options
when it exists and reads, the fallback defaults when it is absent or
unreadable — and cache the outcome. The filesystem is abstracted as a map
from project roots to tsconfig states. -/
def getCompilerOptions (fsv : String → TsconfigState) (projectRoot : String)
    (c : Cache) : TsCompilerOptions × Cache :=
  match c.cachedCompilerOptions with
  | some o => (o, c)
  | none =>
    match fsv projectRoot with
    | .readable opts => (opts, { c with cachedCompilerOptions := some opts })
    | _ => (defaultCompilerOptions, { c with cachedCompilerOptions := some defaultCompilerOptions })

/-- Embeds `getDefaultHost`: return the cached host when present,
otherwise create one from the given options and cache it. -/
def getDefaultHost (options : TsCompilerOptions) (c : Cache) : CompilerHost × Cache :=
  match c.cachedDefaultHost with
  | some h => (h, c)
  | none => (⟨options⟩, { c with cachedDefaultHost := some ⟨options⟩ })

/-- Embeds `resetCache`: set both module variables back to `null`. -/
def resetCache (_c : Cache) : Cache := ⟨none, none⟩

/-- Abstraction of the TypeScript compiler API used inside the `try` block
of `createProgramFromGlassFile`: program construction from options, the
default host (spread into the custom host), the pre-resolved import table
captured by that host, and the processed implementation text, which may
raise; and the syntactic diagnostic count of the program's virtual source
file. -/
structure TsOracle (P : Type) where
  createProgram : TsCompilerOptions → CompilerHost → List (String × String) →
    List Char → Except Unit P
  syntacticDiagCount : P → Nat

/-- Embeds `createProgramFromGlassFile`: fetch (possibly cached) options
and default host, infer the unit's on-disk source location under the
project root, neutralize a shebang in the implementation text, resolve
the relative imports of the original text against that location, then
inside a `try` build the program and inspect its syntactic diagnostics —
`null` when construction raises or when fatal syntax errors are present,
the program otherwise. Returns the updated cache alongside. -/
def createProgramFromGlassFile {P : Type} (api : PathApi) (dfs : String → Bool)
    (oracle : TsOracle P) (fsv : String → TsconfigState) (file : GlassFile)
    (projectRoot : String) (c : Cache) : Option P × Cache :=
  let oc := getCompilerOptions fsv projectRoot c
  let hc := getDefaultHost oc.1 oc.2
  let sourcePath := inferSourcePath api dfs file projectRoot
  let impl := stripShebangL file.implementation.data
  let resolvedImports :=
    resolveImplementationImports api dfs file.implementation sourcePath projectRoot
  match oracle.createProgram { oc.1 with noEmit := true } hc.1 resolvedImports impl with
  | .error _ => (none, hc.2)
  | .ok p => if 0 < oracle.syntacticDiagCount p then (none, hc.2) else (some p, hc.2)

/-- Abstraction of the TypeScript compiler API used by the batch factory:
one shared program built from options, the default host, the merged
shared import table of the custom host, and all processed implementation
texts, which may raise. -/
structure BatchTsOracle (P : Type) where
  createProgram : TsCompilerOptions → CompilerHost → List (String × String) →
    List (List Char) → Except Unit P

/-- Embeds `createBatchProgram`: fetch (possibly cached) options and
default host, neutralize shebangs in every implementation, resolve every
file's relative imports against its inferred source location under the
project root into one shared table, then inside a `try` build one shared
program — `null` exactly when construction raises. -/
def createBatchProgram {P : Type} (api : PathApi) (dfs : String → Bool)
    (oracle : BatchTsOracle P) (fsv : String → TsconfigState) (files : List GlassFile)
    (projectRoot : String) (c : Cache) : Option P × Cache :=
  let oc := getCompilerOptions fsv projectRoot c
  let hc := getDefaultHost oc.1 oc.2
  let impls := files.map (fun f => stripShebangL f.implementation.data)
  let allImports := batchResolvedImports api dfs files projectRoot
  match oracle.createProgram { oc.1 with noEmit := true } hc.1 allImports impls with
  | .error _ => (none, hc.2)
  | .ok p => (some p, hc.2)

/-- Intent fixture shared by the concrete test units. -/
def testIntent : Intent :=
  { purpose := "Test unit"
    source := .prd "test"
    parent := none
    stakeholder := .engineering
    subIntents := []
    approvalStatus := .approved }

/-- Build a concrete unit around a contract and an implementation text. -/
def mkUnit (id : String) (c : Contract) (impl : String) : GlassFile :=
  { id := id
    version := "0.1.0"
    language := .typescript
    intent := testIntent
    contract := c
    implementation := impl
    specPath := "/spec.glass"
    implementationPath := none
    separatedFormat := false }

/-- Unit whose only failure mode `Error` occurs in the implementation only
as a substring of the longer identifier `ErrorHandler`. -/
def uWholeWord : GlassFile :=
  mkUnit "test.wholeword"
    { requires := []
      guarantees := ⟨[], []⟩
      invariants := []
      fails := [⟨"Error", "Error(ServiceUnavailable)"⟩]
      advisories := [] }
    "const ErrorHandler = 1"

/-- Unit with one system precondition, one guarantee, one generic
invariant and one handled failure mode. -/
def uMixed : GlassFile :=
  mkUnit "test.mixed"
    { requires := [⟨"input.x is Number"⟩, ⟨"system.db is Active"⟩]
      guarantees := ⟨[⟨"result is Valid"⟩], []⟩
      invariants := [⟨"state correctly updated"⟩]
      fails := [⟨"ValueError", "Error(Invalid)"⟩]
      advisories := [⟨"test advisory", false⟩] }
    "function process(input) try return input.x catch (e) if (e instanceof ValueError) x"

/-- Unit whose exposure invariant is violated: the sensitive field is
passed directly to a logging call. -/
def uExpose : GlassFile :=
  mkUnit "test.exposure"
    { requires := []
      guarantees := ⟨[], []⟩
      invariants := [⟨"user.password_hash never exposed in output or logs"⟩]
      fails := []
      advisories := [] }
    "function bad(user) console.log(user.password_hash) end"

/-- Unit whose exposure invariant is satisfied: the sensitive field only
reaches a comparison call. -/
def uSafe : GlassFile :=
  mkUnit "test.safe"
    { requires := []
      guarantees := ⟨[], []⟩
      invariants := [⟨"user.password_hash never exposed in output or logs"⟩]
      fails := []
      advisories := [] }
    "function check(input, hash) const valid = bcrypt.compare(input, password_hash) end"

/-- A constant oracle over `Nat` used to instantiate the builder
theorems at concrete inputs. -/
def natOracle : TsOracle Nat :=
  { createProgram := fun _ _ _ _ => .ok 0
    syntacticDiagCount := fun _ => 0 }

/-- A concrete path API for witnesses: slash-joined segments. -/
def slashApi : PathApi :=
  { joinSegs := String.intercalate "/"
    resolve2 := fun a b => a ++ "/" ++ b
    dirname := fun s => s }

/-- A disk oracle for witnesses on which no path exists. -/
def noDisk : String → Bool := fun _ => false

/-- A filesystem fixture: every root has a readable tsconfig whose
options differ from the defaults in strictness. -/
def looseOptions : TsCompilerOptions :=
  { defaultCompilerOptions with strict := false }

/-- Filesystem where the root named ok has a readable tsconfig with
`looseOptions` and every other root has none. -/
def fsvFixture : String → TsconfigState :=
  fun root => if root = "ok" then .readable looseOptions else .absent

/-- A constant batch oracle over `Nat` used to instantiate the builder
theorems at concrete inputs. -/
def natBatchOracle : BatchTsOracle Nat :=
  { createProgram := fun _ _ _ _ => .ok 0 }

/-- A cache fixture already populated with the default options and a host
built from them. -/
def cacheFixture : Cache :=
  ⟨some defaultCompilerOptions, some ⟨defaultCompilerOptions⟩⟩

-- ============================================================
-- Helper lemmas
-- ============================================================

/-- A whole-word match somewhere gives a whole-word occurrence of the scan. -/
theorem startsWithL_containsSub {s pat : List Char} (h : startsWithL s pat = true) :
    containsSub s pat = true := by
  cases s with
  | nil => simpa [containsSub] using h
  | cons c cs => simp [containsSub, h]

/-- An anchored match survives appending on the right. -/
theorem startsWithL_append {s t pat : List Char} (h : startsWithL s pat = true) :
    startsWithL (s ++ t) pat = true := by
  induction pat generalizing s with
  | nil => simp [startsWithL]
  | cons p ps ih =>
    cases s with
    | nil => simp [startsWithL] at h
    | cons c cs =>
      simp only [startsWithL, Bool.and_eq_true] at h
      simpa [startsWithL, h.1] using ih h.2

/-- `linesOf` never returns an empty list of lines. -/
theorem linesOf_ne_nil (s : List Char) : linesOf s ≠ [] := by
  cases s with
  | nil => simp [linesOf]
  | cons c cs =>
    by_cases h : c = '\n'
    · simp [linesOf, h]
    · simp only [linesOf, h, if_false]
      cases linesOf cs <;> simp

/-- Joining a line onto a nonempty tail inserts one newline. -/
theorem joinNl_cons {l : List Char} {ls : List (List Char)} (h : ls ≠ []) :
    joinNl (l :: ls) = l ++ '\n' :: joinNl ls := by
  cases ls with
  | nil => exact absurd rfl h
  | cons a as => rfl

/-- `joinNl` is a left inverse of `linesOf`. -/
theorem joinNl_linesOf (s : List Char) : joinNl (linesOf s) = s := by
  induction s with
  | nil => rfl
  | cons c cs ih =>
    by_cases h : c = '\n'
    · subst h
      rw [linesOf, if_pos rfl, joinNl_cons (linesOf_ne_nil cs), ih]
      rfl
    · simp only [linesOf, h, if_false]
      cases hcs : linesOf cs with
      | nil => exact absurd hcs (linesOf_ne_nil cs)
      | cons l ls =>
        cases ls with
        | nil =>
          have : joinNl [l] = cs := by rw [← hcs, ih]
          simpa [joinNl] using this
        | cons m ms =>
          have hne : m :: ms ≠ ([] : List (List Char)) := by simp
          rw [joinNl_cons (by simp), List.cons_append, ← joinNl_cons hne, ← hcs, ih]

/-- Splitting a newline-free line followed by a newline peels exactly that line. -/
theorem linesOf_append_newline {line : List Char} (rest : List Char)
    (h : '\n' ∉ line) : linesOf (line ++ '\n' :: rest) = line :: linesOf rest := by
  induction line with
  | nil => simp [linesOf]
  | cons c cs ih =>
    have hc : c ≠ '\n' := fun hc => h (hc ▸ List.mem_cons_self c cs)
    have hcs : '\n' ∉ cs := fun hm => h (List.mem_cons_of_mem c hm)
    simp only [List.cons_append, linesOf, hc, if_false]
    rw [show cs.append ('\n' :: rest) = cs ++ '\n' :: rest from rfl, ih hcs]

/-- The assertion list of a verification result, unfolded. -/
theorem verifyContract_assertions (u : GlassFile) :
    (verifyContract u).assertions =
      u.contract.requires.map (classifyRequire u.implementation)
        ++ u.contract.guarantees.onSuccess.map classifyGuarantee
        ++ u.contract.guarantees.onFailure.map classifyGuarantee
        ++ u.contract.invariants.map (classifyInvariant u.implementation)
        ++ u.contract.fails.map (classifyFailureMode u.implementation) := rfl

/-- The advisory list of a verification result is the contract's. -/
theorem verifyContract_advisories (u : GlassFile) :
    (verifyContract u).advisories = u.contract.advisories := rfl

/-- The status is the all-passed test over the assertion list. -/
theorem verifyContract_status (u : GlassFile) :
    (verifyContract u).status =
      (if ((verifyContract u).assertions.all fun a => a.passed) then
        VerificationStatus.PROVEN else .FAILED) := rfl

/-- The status is `PROVEN` exactly when every assertion passed. -/
theorem status_proven_iff (u : GlassFile) :
    (verifyContract u).status = .PROVEN ↔
      ∀ a ∈ (verifyContract u).assertions, a.passed = true := by
  rw [verifyContract_status]
  by_cases h : ((verifyContract u).assertions.all fun a => a.passed) = true
  · simp only [h, if_true, true_iff]
    exact fun a ha => List.all_eq_true.mp h a ha
  · simp only [h, if_false]
    constructor
    · intro hcontra; cases hcontra
    · intro hall
      exact absurd (List.all_eq_true.mpr fun a ha => hall a ha) h

/-- A failing assertion forces status `FAILED`. -/
theorem status_failed_of_mem {u : GlassFile} {a : VerificationAssertion}
    (ha : a ∈ (verifyContract u).assertions) (hp : a.passed = false) :
    (verifyContract u).status = .FAILED := by
  rw [verifyContract_status, if_neg]
  intro hall
  have := List.all_eq_true.mp hall a ha
  simp only [hp] at this
  cases this

/-- Precondition classification only ever produces `PROVEN` or
`INSTRUMENTED`, and an instrumented precondition is optimistic. -/
theorem classifyRequire_instr_passed (impl : String) (cl : ContractAssertion)
    (h : (classifyRequire impl cl).level = .INSTRUMENTED) :
    (classifyRequire impl cl).passed = true := by
  unfold classifyRequire at *
  split at h
  · split at h <;> simp_all
  · split at h <;> simp_all

/-- An instrumented invariant is optimistic. -/
theorem classifyInvariant_instr_passed (impl : String) (cl : ContractAssertion)
    (h : (classifyInvariant impl cl).level = .INSTRUMENTED) :
    (classifyInvariant impl cl).passed = true := by
  unfold classifyInvariant at *
  split at h
  · simp_all
  · split at h
    · split at h <;> simp_all
    · simp_all

/-- Failure-mode assertions always carry level `PROVEN`. -/
theorem classifyFailureMode_level (impl : String) (fm : FailureMode) :
    (classifyFailureMode impl fm).level = .PROVEN := by
  unfold classifyFailureMode
  split <;> rfl

/-- Every assertion of level `INSTRUMENTED` in a verification result has
`passed = true`: only optimistic classifications defer to runtime. -/
theorem instrumented_passed {u : GlassFile} {a : VerificationAssertion}
    (ha : a ∈ (verifyContract u).assertions) (hl : a.level = .INSTRUMENTED) :
    a.passed = true := by
  rw [verifyContract_assertions] at ha
  simp only [List.mem_append, List.mem_map] at ha
  rcases ha with ((((⟨cl, _, rfl⟩ | ⟨cl, _, rfl⟩) | ⟨cl, _, rfl⟩) | ⟨cl, _, rfl⟩) | ⟨fm, _, rfl⟩)
  · exact classifyRequire_instr_passed _ _ hl
  · rfl
  · rfl
  · exact classifyInvariant_instr_passed _ _ hl
  · rw [classifyFailureMode_level] at hl
    cases hl

-- ============================================================
-- Claim theorems
-- ============================================================

/-- C2: verification drops no clause and invents none — the result has
exactly one assertion per entry of `requires`, `guarantees.onSuccess`,
`guarantees.onFailure`, `invariants` and `fails`, so the assertion count
is the sum of the five section sizes; and the overall status is `PROVEN`
if and only if every produced assertion has `passed = true`, and `FAILED`
otherwise. -/
theorem completeness_and_status (u : GlassFile) :
    (verifyContract u).assertions.length =
      u.contract.requires.length + u.contract.guarantees.onSuccess.length
        + u.contract.guarantees.onFailure.length + u.contract.invariants.length
        + u.contract.fails.length
    ∧ ((verifyContract u).status = .PROVEN ↔
        ∀ a ∈ (verifyContract u).assertions, a.passed = true)
    ∧ ((verifyContract u).status ≠ .PROVEN → (verifyContract u).status = .FAILED) := by
  refine ⟨?_, status_proven_iff u, ?_⟩
  · rw [verifyContract_assertions]
    simp [List.length_append, List.length_map]
    omega
  · intro h
    cases hs : (verifyContract u).status with
    | PROVEN => exact absurd hs h
    | FAILED => rfl

/-- Witness for C2 at the concrete mixed unit: five assertions, and the
status is `PROVEN` exactly when all of them passed. -/
theorem completeness_and_status_witness :
    (verifyContract uMixed).assertions.length =
      uMixed.contract.requires.length + uMixed.contract.guarantees.onSuccess.length
        + uMixed.contract.guarantees.onFailure.length + uMixed.contract.invariants.length
        + uMixed.contract.fails.length
    ∧ ((verifyContract uMixed).status = .PROVEN ↔
        ∀ a ∈ (verifyContract uMixed).assertions, a.passed = true)
    ∧ ((verifyContract uMixed).status ≠ .PROVEN → (verifyContract uMixed).status = .FAILED) :=
  completeness_and_status uMixed

/-- C3: verification is deterministic — two calls of `verifyContract` on
the identical unit yield field-for-field identical results: same unit id,
same status, same assertion list in the same order (hence identical
assertion text, passed flags, levels and messages), same advisories. -/
theorem verify_deterministic (u : GlassFile) (r1 r2 : VerificationResult)
    (h1 : r1 = verifyContract u) (h2 : r2 = verifyContract u) :
    r1.unitId = r2.unitId ∧ r1.status = r2.status ∧ r1.assertions = r2.assertions
      ∧ r1.advisories = r2.advisories := by
  subst h1; subst h2
  exact ⟨rfl, rfl, rfl, rfl⟩

/-- Witness for C3: two runs on the concrete mixed unit agree on every field. -/
theorem verify_deterministic_witness :
    (verifyContract uMixed).unitId = (verifyContract uMixed).unitId
    ∧ (verifyContract uMixed).status = (verifyContract uMixed).status
    ∧ (verifyContract uMixed).assertions = (verifyContract uMixed).assertions
    ∧ (verifyContract uMixed).advisories = (verifyContract uMixed).advisories :=
  verify_deterministic uMixed (verifyContract uMixed) (verifyContract uMixed) rfl rfl

/-- C4: neither verification nor instrumentation planning mutates its
input — the unit observed after a `verifyContract` or
`generateInstrumentation` call is equal, field for field, to the unit
passed in (the embedded calls are pure and thread the unit unchanged). -/
theorem no_mutation (u : GlassFile) (r : VerificationResult) :
    (verifyContractRun u).2 = u ∧ (generateInstrumentationRun u r).2 = u
      ∧ (verifyContractRun u).2.contract = u.contract
      ∧ (verifyContractRun u).2.contract.advisories = u.contract.advisories :=
  ⟨rfl, rfl, rfl, rfl⟩

/-- Witness for C4 at the concrete mixed unit. -/
theorem no_mutation_witness :
    (verifyContractRun uMixed).2 = uMixed
    ∧ (generateInstrumentationRun uMixed (verifyContract uMixed)).2 = uMixed
    ∧ (verifyContractRun uMixed).2.contract = uMixed.contract
    ∧ (verifyContractRun uMixed).2.contract.advisories = uMixed.contract.advisories :=
  no_mutation uMixed (verifyContract uMixed)

/-- C1: every declared failure mode produces one assertion obtained by a
whole-word token search of the implementation text for the
`FailureMode.errorType` identifier (a substring occurrence does not
count): the assertion is level `PROVEN`, its `passed` flag is exactly the
whole-word search outcome, with message referenced in implementation when
the token is present and not found in implementation when it is absent,
and an absent token forces the unit's overall status to `FAILED`. -/
theorem failure_mode_soundness (u : GlassFile) (fm : FailureMode)
    (hmem : fm ∈ u.contract.fails) :
    classifyFailureMode u.implementation fm ∈ (verifyContract u).assertions
    ∧ (classifyFailureMode u.implementation fm).passed
        = containsWholeWordStr u.implementation fm.errorType
    ∧ (classifyFailureMode u.implementation fm).level = .PROVEN
    ∧ (containsWholeWordStr u.implementation fm.errorType = true →
        (classifyFailureMode u.implementation fm).message = "referenced in implementation")
    ∧ (containsWholeWordStr u.implementation fm.errorType = false →
        (classifyFailureMode u.implementation fm).message = "not found in implementation"
        ∧ (verifyContract u).status = .FAILED) := by
  have hmemA : classifyFailureMode u.implementation fm ∈ (verifyContract u).assertions := by
    rw [verifyContract_assertions]
    exact List.mem_append_right _ (List.mem_map_of_mem _ hmem)
  refine ⟨hmemA, ?_, classifyFailureMode_level _ _, ?_, ?_⟩
  · unfold classifyFailureMode
    split <;> simp_all
  · intro h
    unfold classifyFailureMode
    rw [if_pos h]
  · intro h
    have hpassed : (classifyFailureMode u.implementation fm).passed = false := by
      unfold classifyFailureMode
      rw [if_neg (by simp [h])]
    refine ⟨?_, status_failed_of_mem hmemA hpassed⟩
    unfold classifyFailureMode
    rw [if_neg (by simp [h])]

/-- Witness for C1 at the unit whose failure mode `Error` appears in the
implementation only inside the longer identifier `ErrorHandler`: the
whole-word search rejects the substring occurrence, the assertion fails
with the absence message, and the unit's status is `FAILED`. -/
theorem failure_mode_soundness_witness :
    (classifyFailureMode uWholeWord.implementation
        ⟨"Error", "Error(ServiceUnavailable)"⟩).message = "not found in implementation"
    ∧ (verifyContract uWholeWord).status = .FAILED :=
  (failure_mode_soundness uWholeWord ⟨"Error", "Error(ServiceUnavailable)"⟩
    (by decide)).2.2.2.2 (by decide)

/-- C8: for every invariant naming a sensitive identifier as never
exposed, the produced assertion is level `PROVEN`; it fails when the
implementation passes the identifier to a logging/printing call, and
passes when the identifier appears only inside a safe comparison/hashing
call. Invariants about runtime memory lifetime (never held in memory)
are instead always level `INSTRUMENTED`. -/
theorem exposure_invariant (u : GlassFile) (cl : ContractAssertion)
    (hmem : cl ∈ u.contract.invariants) :
    classifyInvariant u.implementation cl ∈ (verifyContract u).assertions
    ∧ (containsSubstr cl.description "never held in memory" = true →
        (classifyInvariant u.implementation cl).level = .INSTRUMENTED)
    ∧ (containsSubstr cl.description "never held in memory" = false →
       containsSubstr cl.description "never exposed" = true →
        (classifyInvariant u.implementation cl).level = .PROVEN
        ∧ (identInLoggingCall u.implementation (sensitiveIdent cl.description) = true →
            (classifyInvariant u.implementation cl).passed = false)
        ∧ (identOnlyInSafeCalls u.implementation (sensitiveIdent cl.description) = true →
            (classifyInvariant u.implementation cl).passed = true)) := by
  refine ⟨?_, ?_, ?_⟩
  · rw [verifyContract_assertions]
    refine List.mem_append_left _ (List.mem_append_right _ (List.mem_map_of_mem _ hmem))
  · intro h
    unfold classifyInvariant
    rw [if_pos h]
  · intro hmemo hexpo
    have hne : ¬ containsSubstr cl.description "never held in memory" = true := by
      simp [hmemo]
    refine ⟨?_, ?_, ?_⟩
    · unfold classifyInvariant
      rw [if_neg hne, if_pos hexpo]
      split <;> rfl
    · intro hlog
      unfold classifyInvariant
      rw [if_neg hne, if_pos hexpo, if_pos hlog]
    · intro hsafe
      have hnolog : ¬ identInLoggingCall u.implementation (sensitiveIdent cl.description) = true := by
        unfold identOnlyInSafeCalls at hsafe
        simp only [Bool.and_eq_true, Bool.not_eq_true'] at hsafe
        simp [hsafe.2]
      unfold classifyInvariant
      rw [if_neg hne, if_pos hexpo, if_neg hnolog]

/-- Witness for C8: the unit logging the sensitive field fails the
exposure invariant, and the unit that only compares it passes. -/
theorem exposure_invariant_witness :
    (classifyInvariant uExpose.implementation
        ⟨"user.password_hash never exposed in output or logs"⟩).passed = false
    ∧ (classifyInvariant uSafe.implementation
        ⟨"user.password_hash never exposed in output or logs"⟩).passed = true :=
  ⟨((exposure_invariant uExpose ⟨"user.password_hash never exposed in output or logs"⟩
      (by decide)).2.2 (by decide) (by decide)).2.1 (by decide),
   ((exposure_invariant uSafe ⟨"user.password_hash never exposed in output or logs"⟩
      (by decide)).2.2 (by decide) (by decide)).2.2 (by decide)⟩

/-- The first `|requires|` assertions are exactly the precondition assertions. -/
theorem assertions_take_requires (u : GlassFile) :
    (verifyContract u).assertions.take u.contract.requires.length
      = u.contract.requires.map (classifyRequire u.implementation) := by
  rw [verifyContract_assertions]
  simp only [List.append_assoc]
  exact List.take_left' (List.length_map _ _)

/-- Dropping the precondition assertions leaves the guarantee, invariant
and failure-mode assertions. -/
theorem assertions_drop_requires (u : GlassFile) :
    (verifyContract u).assertions.drop u.contract.requires.length
      = u.contract.guarantees.onSuccess.map classifyGuarantee
        ++ (u.contract.guarantees.onFailure.map classifyGuarantee
        ++ (u.contract.invariants.map (classifyInvariant u.implementation)
        ++ u.contract.fails.map (classifyFailureMode u.implementation))) := by
  rw [verifyContract_assertions]
  simp only [List.append_assoc]
  exact List.drop_left' (List.length_map _ _)

/-- The middle section of the assertion list is exactly the guarantee and
invariant assertions. -/
theorem assertions_mid (u : GlassFile) :
    ((verifyContract u).assertions.drop u.contract.requires.length).take
        (u.contract.guarantees.onSuccess.length + u.contract.guarantees.onFailure.length
          + u.contract.invariants.length)
      = u.contract.guarantees.onSuccess.map classifyGuarantee
        ++ u.contract.guarantees.onFailure.map classifyGuarantee
        ++ u.contract.invariants.map (classifyInvariant u.implementation) := by
  rw [assertions_drop_requires]
  rw [show u.contract.guarantees.onSuccess.map classifyGuarantee
        ++ (u.contract.guarantees.onFailure.map classifyGuarantee
        ++ (u.contract.invariants.map (classifyInvariant u.implementation)
        ++ u.contract.fails.map (classifyFailureMode u.implementation)))
      = (u.contract.guarantees.onSuccess.map classifyGuarantee
        ++ u.contract.guarantees.onFailure.map classifyGuarantee
        ++ u.contract.invariants.map (classifyInvariant u.implementation))
        ++ u.contract.fails.map (classifyFailureMode u.implementation) by
    simp only [List.append_assoc]]
  refine List.take_left' ?_
  simp only [List.length_append, List.length_map]

/-- No failure-mode assertion is ever instrumented. -/
theorem filter_instr_fails (u : GlassFile) :
    ((u.contract.fails.map (classifyFailureMode u.implementation)).filter
      fun a => a.level == VerificationLevel.INSTRUMENTED) = [] := by
  refine List.filter_eq_nil_iff.mpr ?_
  intro a ha
  rcases List.mem_map.mp ha with ⟨fm, -, rfl⟩
  simp [classifyFailureMode_level]

/-- C5: the instrumentation plan covers exactly the statically-unproven
gap — every check of `plan(u, r)` corresponds to an assertion of `r` with
level `INSTRUMENTED` and `passed = true` (so never to a `PROVEN` or
failed assertion), the number of checks equals the number of instrumented
assertions (one check per instrumented assertion, none dropped), and
every instrumented precondition assertion yields a check at insertion
point `pre` while every instrumented guarantee/invariant assertion yields
a check at insertion point `post`. -/
theorem instrumentation_minimality (u : GlassFile) :
    (∀ c ∈ (generateInstrumentation u (verifyContract u)).checks,
      ∃ a ∈ (verifyContract u).assertions,
        c.assertionText = a.assertion ∧ a.level = .INSTRUMENTED ∧ a.passed = true)
    ∧ (generateInstrumentation u (verifyContract u)).checks.length
        = ((verifyContract u).assertions.filter
            fun a => a.level == VerificationLevel.INSTRUMENTED).length
    ∧ (∀ a ∈ (verifyContract u).assertions.take u.contract.requires.length,
        a.level = .INSTRUMENTED →
          mkCheck .pre a ∈ (generateInstrumentation u (verifyContract u)).checks)
    ∧ (∀ a ∈ ((verifyContract u).assertions.drop u.contract.requires.length).take
          (u.contract.guarantees.onSuccess.length + u.contract.guarantees.onFailure.length
            + u.contract.invariants.length),
        a.level = .INSTRUMENTED →
          mkCheck .post a ∈ (generateInstrumentation u (verifyContract u)).checks) := by
  have hchecks : (generateInstrumentation u (verifyContract u)).checks =
      (((verifyContract u).assertions.take u.contract.requires.length).filter
          (fun a => a.level == VerificationLevel.INSTRUMENTED)).map (mkCheck .pre)
        ++ ((((verifyContract u).assertions.drop u.contract.requires.length).take
            (u.contract.guarantees.onSuccess.length + u.contract.guarantees.onFailure.length
              + u.contract.invariants.length)).filter
          (fun a => a.level == VerificationLevel.INSTRUMENTED)).map (mkCheck .post) := rfl
  refine ⟨?_, ?_, ?_, ?_⟩
  · intro c hc
    rw [hchecks] at hc
    rcases List.mem_append.mp hc with hcp | hcp
    · rcases List.mem_map.mp hcp with ⟨a, haf, rfl⟩
      have ha := List.mem_filter.mp haf
      have haA : a ∈ (verifyContract u).assertions := List.take_subset _ _ ha.1
      have hlev : a.level = .INSTRUMENTED := by
        have := ha.2
        simpa using beq_iff_eq.mp this
      exact ⟨a, haA, rfl, hlev, instrumented_passed haA hlev⟩
    · rcases List.mem_map.mp hcp with ⟨a, haf, rfl⟩
      have ha := List.mem_filter.mp haf
      have haA : a ∈ (verifyContract u).assertions :=
        List.drop_subset _ _ (List.take_subset _ _ ha.1)
      have hlev : a.level = .INSTRUMENTED := by
        have := ha.2
        simpa using beq_iff_eq.mp this
      exact ⟨a, haA, rfl, hlev, instrumented_passed haA hlev⟩
  · rw [hchecks, List.length_append, List.length_map, List.length_map,
      assertions_take_requires, assertions_mid, verifyContract_assertions]
    simp only [List.filter_append, List.length_append, filter_instr_fails, List.length_nil]
    omega
  · intro a ha hlev
    rw [hchecks]
    refine List.mem_append_left _ (List.mem_map_of_mem _ ?_)
    exact List.mem_filter.mpr ⟨ha, by simp [hlev]⟩
  · intro a ha hlev
    rw [hchecks]
    refine List.mem_append_right _ (List.mem_map_of_mem _ ?_)
    exact List.mem_filter.mpr ⟨ha, by simp [hlev]⟩

/-- Witness for C5: the instrumented system precondition of the mixed
unit yields a check at insertion point `pre`. -/
theorem instrumentation_minimality_witness :
    mkCheck .pre (classifyRequire uMixed.implementation ⟨"system.db is Active"⟩)
      ∈ (generateInstrumentation uMixed (verifyContract uMixed)).checks :=
  (instrumentation_minimality uMixed).2.2.1
    (classifyRequire uMixed.implementation ⟨"system.db is Active"⟩) (by decide) (by decide)

/-- The substitution on a list of two or more lines, unfolded. -/
theorem replaceFirstShebang_cons₂ (a b : List Char) (ls : List (List Char)) :
    replaceFirstShebang (a :: b :: ls) =
      if containsSub a hashBangL then shebangComment :: b :: ls
      else a :: replaceFirstShebang (b :: ls) := rfl

/-- C7: if the original implementation text begins with an interpreter
directive line (a newline-terminated first line starting with the shebang
marker), the builder replaces that line with a comment before parsing, so
the text handed to the parser is the comment line followed by the
untouched remainder; and text without any shebang marker anywhere is
passed through unchanged. -/
theorem shebang_neutralized (line rest : List Char)
    (h1 : '\n' ∉ line) (h2 : startsWithL line hashBangL = true) :
    stripShebangL (line ++ '\n' :: rest) = shebangComment ++ '\n' :: rest
    ∧ ∀ s : List Char, containsSub s hashBangL = false → stripShebangL s = s := by
  constructor
  · have hcLine : containsSub line hashBangL = true := startsWithL_containsSub h2
    have hcAll : containsSub (line ++ '\n' :: rest) hashBangL = true :=
      startsWithL_containsSub (startsWithL_append h2)
    unfold stripShebangL
    rw [if_pos hcAll, linesOf_append_newline rest h1]
    obtain ⟨l, ls, hl⟩ : ∃ l ls, linesOf rest = l :: ls := by
      cases h : linesOf rest with
      | nil => exact absurd h (linesOf_ne_nil rest)
      | cons a b => exact ⟨a, b, rfl⟩
    rw [hl, replaceFirstShebang_cons₂, if_pos hcLine, joinNl_cons (by simp), ← hl,
      joinNl_linesOf]
  · intro s hs
    unfold stripShebangL
    rw [if_neg (by simp [hs])]

/-- Witness for C7: a concrete node shebang line is replaced by the
comment, and a shebang-free text is unchanged. -/
theorem shebang_neutralized_witness :
    stripShebangL ("#!/usr/bin/env node".data ++ '\n' :: "main()".data)
      = shebangComment ++ '\n' :: "main()".data
    ∧ stripShebangL "plain module text".data = "plain module text".data :=
  ⟨(shebang_neutralized "#!/usr/bin/env node".data "main()".data (by decide) (by decide)).1,
   (shebang_neutralized "#!/usr/bin/env node".data "main()".data (by decide) (by decide)).2
     "plain module text".data (by decide)⟩

/-- C6: the program factory is total and never propagates an exception —
for every oracle behaviour, filesystem, unit, project root and cache
state, `createProgramFromGlassFile` returns an `Option` value (never
raises), and it returns `none` exactly when program construction raised
or the built program carries fatal syntax errors (a positive syntactic
diagnostic count); a returned program has a clean syntactic diagnostic
check and came from a successful construction. -/
theorem builder_totality {P : Type} (api : PathApi) (dfs : String → Bool)
    (oracle : TsOracle P) (fsv : String → TsconfigState)
    (file : GlassFile) (projectRoot : String) (c : Cache) :
    ((createProgramFromGlassFile api dfs oracle fsv file projectRoot c).1 = none ↔
      (∃ e, oracle.createProgram
          { (getCompilerOptions fsv projectRoot c).1 with noEmit := true }
          (getDefaultHost (getCompilerOptions fsv projectRoot c).1
            (getCompilerOptions fsv projectRoot c).2).1
          (resolveImplementationImports api dfs file.implementation
            (inferSourcePath api dfs file projectRoot) projectRoot)
          (stripShebangL file.implementation.data) = .error e)
      ∨ (∃ p, oracle.createProgram
          { (getCompilerOptions fsv projectRoot c).1 with noEmit := true }
          (getDefaultHost (getCompilerOptions fsv projectRoot c).1
            (getCompilerOptions fsv projectRoot c).2).1
          (resolveImplementationImports api dfs file.implementation
            (inferSourcePath api dfs file projectRoot) projectRoot)
          (stripShebangL file.implementation.data) = .ok p
          ∧ 0 < oracle.syntacticDiagCount p))
    ∧ ∀ p, (createProgramFromGlassFile api dfs oracle fsv file projectRoot c).1 = some p →
        oracle.createProgram
          { (getCompilerOptions fsv projectRoot c).1 with noEmit := true }
          (getDefaultHost (getCompilerOptions fsv projectRoot c).1
            (getCompilerOptions fsv projectRoot c).2).1
          (resolveImplementationImports api dfs file.implementation
            (inferSourcePath api dfs file projectRoot) projectRoot)
          (stripShebangL file.implementation.data) = .ok p
        ∧ oracle.syntacticDiagCount p = 0 := by
  simp only [createProgramFromGlassFile]
  cases hcp : oracle.createProgram
      { (getCompilerOptions fsv projectRoot c).1 with noEmit := true }
      (getDefaultHost (getCompilerOptions fsv projectRoot c).1
        (getCompilerOptions fsv projectRoot c).2).1
      (resolveImplementationImports api dfs file.implementation
        (inferSourcePath api dfs file projectRoot) projectRoot)
      (stripShebangL file.implementation.data) with
  | error e =>
    refine ⟨by simp [hcp], ?_⟩
    intro p hp
    simp only [hcp] at hp
    cases hp
  | ok p =>
    by_cases hd : 0 < oracle.syntacticDiagCount p
    · refine ⟨by simp [hcp, hd], ?_⟩
      intro q hq
      simp only [hcp, if_pos hd] at hq
      cases hq
    · refine ⟨by simp [hcp, hd], ?_⟩
      intro q hq
      simp only [hcp, if_neg hd] at hq
      cases hq
      exact ⟨rfl, Nat.eq_zero_of_not_pos hd⟩

/-- Witness for C6: with a concrete oracle that always builds a program
with zero diagnostics, the factory returns that program, whose
construction succeeded and whose syntactic diagnostic count is zero. -/
theorem builder_totality_witness :
    natOracle.createProgram
      { (getCompilerOptions fsvFixture "ok" emptyCache).1 with noEmit := true }
      (getDefaultHost (getCompilerOptions fsvFixture "ok" emptyCache).1
        (getCompilerOptions fsvFixture "ok" emptyCache).2).1
      (resolveImplementationImports slashApi noDisk uMixed.implementation
        (inferSourcePath slashApi noDisk uMixed "ok") "ok")
      (stripShebangL uMixed.implementation.data) = .ok 0
    ∧ natOracle.syntacticDiagCount 0 = 0 :=
  (builder_totality slashApi noDisk natOracle fsvFixture uMixed "ok" emptyCache).2 0 (by decide)

/-- C9: with an empty cache, when no tsconfig is found at the project
root or it cannot be read, `getCompilerOptions` falls back to the
built-in defaults, which have strict mode enabled, declaration emission
disabled and no-emit set; when a readable tsconfig exists, its parsed
options are returned instead. -/
theorem config_fallback (fsv : String → TsconfigState) (root : String) :
    ((fsv root = .absent ∨ fsv root = .unreadable) →
      (getCompilerOptions fsv root emptyCache).1 = defaultCompilerOptions)
    ∧ (∀ opts, fsv root = .readable opts →
        (getCompilerOptions fsv root emptyCache).1 = opts)
    ∧ defaultCompilerOptions.strict = true
    ∧ defaultCompilerOptions.declaration = false
    ∧ defaultCompilerOptions.noEmit = true := by
  refine ⟨?_, ?_, rfl, rfl, rfl⟩
  · rintro (h | h) <;> simp [getCompilerOptions, emptyCache, h]
  · intro opts h
    simp [getCompilerOptions, emptyCache, h]

/-- Witness for C9: a root with no tsconfig yields the defaults, the root
with a readable tsconfig yields its parsed options. -/
theorem config_fallback_witness :
    (getCompilerOptions fsvFixture "miss" emptyCache).1 = defaultCompilerOptions
    ∧ (getCompilerOptions fsvFixture "ok" emptyCache).1 = looseOptions :=
  ⟨(config_fallback fsvFixture "miss").1 (Or.inl (by decide)),
   (config_fallback fsvFixture "ok").2.1 looseOptions (by decide)⟩

/-- A warm-cache single-unit factory call: with both cache fields
populated, the program is built from the cached options (no-emit forced)
and the cached host, the import table still derives from the call's own
project root, and the cache is returned unchanged — for any tsconfig
filesystem, which is never consulted. -/
theorem createProgramFromGlassFile_cached {P : Type} (api : PathApi) (dfs : String → Bool)
    (oracle : TsOracle P) (fsv : String → TsconfigState) (file : GlassFile)
    (root2 : String) (o : TsCompilerOptions) (h : CompilerHost) (c : Cache)
    (hco : c.cachedCompilerOptions = some o) (hch : c.cachedDefaultHost = some h) :
    createProgramFromGlassFile api dfs oracle fsv file root2 c
      = (match oracle.createProgram { o with noEmit := true } h
          (resolveImplementationImports api dfs file.implementation
            (inferSourcePath api dfs file root2) root2)
          (stripShebangL file.implementation.data) with
        | .error _ => (none, c)
        | .ok p => if 0 < oracle.syntacticDiagCount p then (none, c) else (some p, c)) := by
  simp only [createProgramFromGlassFile, getCompilerOptions, getDefaultHost, hco, hch]

/-- A warm-cache batch factory call: cached options and host are reused,
the shared import table still derives from the call's own project root,
and the cache is returned unchanged — for any tsconfig filesystem. -/
theorem createBatchProgram_cached {P : Type} (api : PathApi) (dfs : String → Bool)
    (boracle : BatchTsOracle P) (fsv : String → TsconfigState) (files : List GlassFile)
    (root2 : String) (o : TsCompilerOptions) (h : CompilerHost) (c : Cache)
    (hco : c.cachedCompilerOptions = some o) (hch : c.cachedDefaultHost = some h) :
    createBatchProgram api dfs boracle fsv files root2 c
      = (match boracle.createProgram { o with noEmit := true } h
          (batchResolvedImports api dfs files root2)
          (files.map fun f => stripShebangL f.implementation.data) with
        | .error _ => (none, c)
        | .ok p => (some p, c)) := by
  simp only [createBatchProgram, getCompilerOptions, getDefaultHost, hco, hch]

/-- C10: the shared analysis state is a cache that ignores its project
root once populated — with cached options present, `getCompilerOptions`
returns them untouched for any root and any filesystem (no tsconfig is
read), and similarly for the cached host; the first call on an empty
cache populates it, after which a call with a different root reuses the
first root's options; `createProgramFromGlassFile` and
`createBatchProgram` on a populated cache build their program from the
cached options and cached host — the call's own project root still
drives import resolution, but the tsconfig of the new root is never consulted,
so the result is independent of the tsconfig filesystem and the cache is
left unchanged; and `resetCache` clears both cache fields, after which
the next call reads configuration for its own root. -/
theorem cache_ignores_root (P : Type) (oracle : TsOracle P) (boracle : BatchTsOracle P)
    (file : GlassFile) (files : List GlassFile) (api : PathApi) (dfs : String → Bool)
    (fsv fsv2 fsv3 : String → TsconfigState) (root root2 root3 : String)
    (o : TsCompilerOptions) (h : CompilerHost) (c : Cache) :
    (c.cachedCompilerOptions = some o →
      getCompilerOptions fsv2 root2 c = (o, c)
      ∧ getCompilerOptions fsv2 root2 c = getCompilerOptions fsv3 root3 c)
    ∧ (c.cachedDefaultHost = some h → getDefaultHost o c = (h, c))
    ∧ (getCompilerOptions fsv root emptyCache).2.cachedCompilerOptions
        = some (getCompilerOptions fsv root emptyCache).1
    ∧ (getCompilerOptions fsv2 root2 (getCompilerOptions fsv root emptyCache).2).1
        = (getCompilerOptions fsv root emptyCache).1
    ∧ (c.cachedCompilerOptions = some o → c.cachedDefaultHost = some h →
        createProgramFromGlassFile api dfs oracle fsv2 file root2 c
          = (match oracle.createProgram { o with noEmit := true } h
              (resolveImplementationImports api dfs file.implementation
                (inferSourcePath api dfs file root2) root2)
              (stripShebangL file.implementation.data) with
            | .error _ => (none, c)
            | .ok p => if 0 < oracle.syntacticDiagCount p then (none, c) else (some p, c))
        ∧ createProgramFromGlassFile api dfs oracle fsv2 file root2 c
            = createProgramFromGlassFile api dfs oracle fsv3 file root2 c)
    ∧ (c.cachedCompilerOptions = some o → c.cachedDefaultHost = some h →
        createBatchProgram api dfs boracle fsv2 files root2 c
          = (match boracle.createProgram { o with noEmit := true } h
              (batchResolvedImports api dfs files root2)
              (files.map fun f => stripShebangL f.implementation.data) with
            | .error _ => (none, c)
            | .ok p => (some p, c))
        ∧ createBatchProgram api dfs boracle fsv2 files root2 c
            = createBatchProgram api dfs boracle fsv3 files root2 c)
    ∧ resetCache c = emptyCache
    ∧ (resetCache c).cachedCompilerOptions = none
    ∧ (resetCache c).cachedDefaultHost = none
    ∧ (∀ opts, fsv2 root2 = .readable opts →
        (getCompilerOptions fsv2 root2 (resetCache c)).1 = opts) := by
  have hopts : ∀ (g : String → TsconfigState) (r : String),
      c.cachedCompilerOptions = some o → getCompilerOptions g r c = (o, c) := by
    intro g r hco
    simp [getCompilerOptions, hco]
  have hhost : c.cachedDefaultHost = some h → getDefaultHost o c = (h, c) := by
    intro hch
    simp [getDefaultHost, hch]
  have hpop : (getCompilerOptions fsv root emptyCache).2.cachedCompilerOptions
      = some (getCompilerOptions fsv root emptyCache).1 := by
    cases hfs : fsv root <;> simp [getCompilerOptions, emptyCache, hfs]
  refine ⟨fun hco => ⟨hopts fsv2 root2 hco, (hopts fsv2 root2 hco).trans (hopts fsv3 root3 hco).symm⟩,
    hhost, hpop, ?_, ?_, ?_, rfl, rfl, rfl, ?_⟩
  · have huse : ∀ (g : String → TsconfigState) (r : String) (c2 : Cache)
        (x : TsCompilerOptions), c2.cachedCompilerOptions = some x →
        (getCompilerOptions g r c2).1 = x := by
      intro g r c2 x hx
      simp [getCompilerOptions, hx]
    exact huse fsv2 root2 _ _ hpop
  · intro hco hch
    exact ⟨createProgramFromGlassFile_cached api dfs oracle fsv2 file root2 o h c hco hch,
      (createProgramFromGlassFile_cached api dfs oracle fsv2 file root2 o h c hco hch).trans
        (createProgramFromGlassFile_cached api dfs oracle fsv3 file root2 o h c hco hch).symm⟩
  · intro hco hch
    exact ⟨createBatchProgram_cached api dfs boracle fsv2 files root2 o h c hco hch,
      (createBatchProgram_cached api dfs boracle fsv2 files root2 o h c hco hch).trans
        (createBatchProgram_cached api dfs boracle fsv3 files root2 o h c hco hch).symm⟩
  · intro opts hfs
    simp [resetCache, getCompilerOptions, hfs]

/-- Witness for C10: on the populated cache fixture a call with a fresh
root and an unreadable-everywhere filesystem still returns the cached
default options unchanged, and after a reset the next call picks up the
readable options of its own root. -/
theorem cache_ignores_root_witness :
    getCompilerOptions (fun _ => TsconfigState.readable looseOptions) "r2" cacheFixture
      = (defaultCompilerOptions, cacheFixture)
    ∧ (getCompilerOptions (fun _ => TsconfigState.readable looseOptions) "r2"
        (resetCache cacheFixture)).1 = looseOptions :=
  ⟨((cache_ignores_root Nat natOracle natBatchOracle uMixed [] slashApi noDisk
      fsvFixture (fun _ => TsconfigState.readable looseOptions) fsvFixture
      "ok" "r2" "r3" defaultCompilerOptions ⟨defaultCompilerOptions⟩ cacheFixture).1 rfl).1,
   (cache_ignores_root Nat natOracle natBatchOracle uMixed [] slashApi noDisk
      fsvFixture (fun _ => TsconfigState.readable looseOptions) fsvFixture
      "ok" "r2" "r3" defaultCompilerOptions ⟨defaultCompilerOptions⟩ cacheFixture).2.2.2.2.2.2.2.2.2
      looseOptions rfl⟩

end Glass
